import Mathlib

/-!
# go-googlecloudrun: the CEP weather handler

A shallow embedding of `main.go`: the postal-code validator `isValidCEP`, the
two resolvers `getLocationFromCEP` and `getWeatherData`, the unit conversions
and the request handler `getWeatherByCEP`, followed by the properties proved
about them.
-/

set_option maxRecDepth 8192
set_option exponentiation.threshold 4096

namespace CepWeather

/-! ## Regular expressions (the fragment of RE2 syntax used by `isValidCEP`) -/

/-- Parsed regular expressions, after the operators of Go's `regexp/syntax`:
`OpBeginText`, `OpEndText`, `OpCharClass` (a list of inclusive code-point
ranges), `OpConcat` and `OpRepeat` with equal bounds. -/
inductive Regex where
  | beginText
  | endText
  | charClass (ranges : List (Nat × Nat))
  | concat (a b : Regex)
  | repeatN (r : Regex) (n : Nat)
  deriving Repr

/-- Membership of a rune in a character class. -/
def inClass (ranges : List (Nat × Nat)) (c : Char) : Bool :=
  ranges.any fun r => r.1 ≤ c.toNat && c.toNat ≤ r.2

/-- Thread a position through `n` successive matches of `step`. -/
def iterEnds (step : Nat → List Nat) : Nat → Nat → List Nat
  | 0, p => [p]
  | n + 1, p => (step p).flatMap (iterEnds step n)

/-- All positions at which a match of `r` that starts at position `p` of the
rune sequence `s` can end. -/
def Regex.ends : Regex → List Char → Nat → List Nat
  | .beginText, _, p => if p = 0 then [p] else []
  | .endText, s, p => if p = s.length then [p] else []
  | .charClass rs, s, p =>
      match s.get? p with
      | some c => if inClass rs c then [p + 1] else []
      | none => []
  | .concat a b, s, p => (a.ends s p).flatMap (b.ends s)
  | .repeatN r n, s, p => iterEnds (r.ends s) n p

/-- Unanchored search, as `regexp.MatchString` does it: some start position
admits a match.  The string is read as its sequence of runes. -/
def Regex.matchString (re : Regex) (s : String) : Bool :=
  (List.range (s.data.length + 1)).any fun i => !(re.ends s.data i).isEmpty

/-- The Perl class `\d` of RE2: the ASCII digits, code points 0x30 to 0x39. -/
def perlDigit : Regex := .charClass [(0x30, 0x39)]

/-- The pattern of `isValidCEP`, `^\d{8}$`, parsed without the multi-line
flag: `^` is begin-of-text and `$` is end-of-text. -/
def cepPattern : Regex :=
  .concat .beginText (.concat (.repeatN perlDigit 8) .endText)

/-- Source: `isValidCEP` (main.go, lines 102-106). -/
def isValidCEP (cep : String) : Bool :=
  cepPattern.matchString cep

/-! ## IEEE-754 binary64 arithmetic (Go's `float64`) -/

/-- A `float64` value.  A finite value `fin neg m e` stands for
`(-1)^neg * m * 2^e`; the results of the operations below are canonical:
`m < 2^53`, `-1074 ≤ e ≤ 971`, and `2^52 ≤ m` unless `e = -1074`. -/
inductive F64 where
  | nan
  | inf (neg : Bool)
  | fin (neg : Bool) (m : Nat) (e : Int)
  deriving DecidableEq, Repr

namespace F64

/-- Halve `n` at most `fuel` times, counting the halvings until it is below 2. -/
def ilog2Aux : Nat → Nat → Nat
  | 0, _ => 0
  | fuel + 1, n => if n < 2 then 0 else ilog2Aux fuel (n / 2) + 1

/-- The position of the leading bit of `n`: `2^(ilog2 n) ≤ n < 2^(ilog2 n + 1)`
for `n > 0`. -/
def ilog2 (n : Nat) : Nat := ilog2Aux n n

/-- The quotient `m / 2^s` rounded to the nearest integer, ties to even. -/
def shiftRoundEven (m s : Nat) : Nat :=
  if 2 ^ s < 2 * (m % 2 ^ s) ∨ (2 * (m % 2 ^ s) = 2 ^ s ∧ m / 2 ^ s % 2 = 1) then
    m / 2 ^ s + 1
  else m / 2 ^ s

/-- The mantissa of `m * 2^e` over the unit `2^q`: exact when `q ≤ e`, rounded
to nearest-even otherwise. -/
def roundMantissa (m : Nat) (e q : Int) : Nat :=
  if q ≤ e then m * 2 ^ (e - q).toNat else shiftRoundEven m (q - e).toNat

/-- Round `(-1)^neg * m * 2^e` to the nearest `float64`, ties to even.  The
result is written over the unit `2^q` of the binade of `m * 2^e`, or over the
subnormal unit `2^-1074`; a mantissa rounded up to `2^53` moves to the next
binade, and a result beyond the largest finite value is an infinity. -/
def round (neg : Bool) (m : Nat) (e : Int) : F64 :=
  if m = 0 then .fin neg 0 (-1074) else
  let q : Int := max (e + (ilog2 m : Int) - 52) (-1074)
  let m2 : Nat := roundMantissa m e q
  if m2 = 2 ^ 53 then
    if 971 < q + 1 then .inf neg else .fin neg (2 ^ 52) (q + 1)
  else
    if 971 < q then .inf neg else .fin neg m2 q

/-- The integer `(-1)^neg * m`. -/
def signed (neg : Bool) (m : Nat) : Int :=
  if neg then -(m : Int) else (m : Int)

/-- Addition, rounded once. -/
def add : F64 → F64 → F64
  | .nan, _ => .nan
  | _, .nan => .nan
  | .inf a, .inf b => if a = b then .inf a else .nan
  | .inf a, .fin _ _ _ => .inf a
  | .fin _ _ _, .inf b => .inf b
  | .fin n1 m1 e1, .fin n2 m2 e2 =>
      let e : Int := min e1 e2
      let s : Int := signed n1 (m1 * 2 ^ (e1 - e).toNat) + signed n2 (m2 * 2 ^ (e2 - e).toNat)
      if s = 0 then .fin (n1 && n2) 0 (-1074) else round (decide (s < 0)) s.natAbs e

/-- Multiplication, rounded once. -/
def mul : F64 → F64 → F64
  | .nan, _ => .nan
  | _, .nan => .nan
  | .inf a, .inf b => .inf (xor a b)
  | .inf a, .fin b m _ => if m = 0 then .nan else .inf (xor a b)
  | .fin a m _, .inf b => if m = 0 then .nan else .inf (xor a b)
  | .fin n1 m1 e1, .fin n2 m2 e2 => round (xor n1 n2) (m1 * m2) (e1 + e2)

/-- Fused multiply-add `x * y + z`, rounded once: the Go specification lets a
compiler fuse `x*y + z` (arm64, ppc64, s390x and riscv64 do). -/
def fma : F64 → F64 → F64 → F64
  | .fin n1 m1 e1, .fin n2 m2 e2, .fin n3 m3 e3 =>
      let e : Int := min (e1 + e2) e3
      let s : Int := signed (xor n1 n2) (m1 * m2 * 2 ^ (e1 + e2 - e).toNat)
        + signed n3 (m3 * 2 ^ (e3 - e).toNat)
      if s = 0 then
        .fin (xor n1 n2 && n3) 0 (-1074)
      else round (decide (s < 0)) s.natAbs e
  | .fin _ _ _, .fin _ _ _, .inf c => .inf c
  | .fin _ _ _, .fin _ _ _, .nan => .nan
  | x, y, z => add (mul x y) z

/-- The `float64` nearest to the non-negative rational `num / den`: how Go
converts an untyped constant to `float64`. -/
def ofRatio (num den : Nat) : F64 :=
  let k : Nat := ilog2 den + 64 - ilog2 num
  let q : Nat := num * 2 ^ k / den
  let sticky : Nat := if num * 2 ^ k % den = 0 then 0 else 1
  round false (2 * q + sticky) (-(k : Int) - 1)

/-- The `float64` nearest to an integer. -/
def ofInt (z : Int) : F64 :=
  round (decide (z < 0)) z.natAbs 0

/-- A value is finite: neither NaN nor an infinity. -/
def isFinite : F64 → Bool
  | .fin _ _ _ => true
  | _ => false

/-- The rational value of a finite `float64` (0 for the others). -/
def toRat : F64 → ℚ
  | .fin neg m e => (signed neg m : ℚ) * 2 ^ e
  | _ => 0

end F64

/-! ## Data model (main.go, lines 14-42) -/

/-- Source: `WeatherResponse`, the 200 payload `temp_C`, `temp_F`, `temp_K`. -/
structure WeatherResponse where
  TempC : F64
  TempF : F64
  TempK : F64
  deriving DecidableEq, Repr

/-- Source: `ErrorResponse`, the payload of every error response. -/
structure ErrorResponse where
  Message : String
  deriving DecidableEq, Repr

/-- Source: `ViaCEPResponse`, the decoded geocoding answer. -/
structure ViaCEPResponse where
  CEP : String
  Logradouro : String
  Complemento : String
  Bairro : String
  Localidade : String
  UF : String
  IBGE : String
  GIA : String
  DDD : String
  SIAFI : String
  Erro : Bool
  deriving DecidableEq, Repr

/-- Source: `WeatherAPIResponse`; `Current.TempC` is flattened to one field. -/
structure WeatherAPIResponse where
  CurrentTempC : F64
  deriving DecidableEq, Repr

/-- A Go `error` value: its dynamic type, as `%T` prints it, and the text its
`Error()` method gives. -/
structure GoError where
  typeName : String
  msg : String
  deriving DecidableEq, Repr

deriving instance DecidableEq for Except

/-- The error `fmt.Errorf(text)` builds from a format without verbs: the
value of `errors.New(text)`. -/
def fmtErrorf (text : String) : GoError := ⟨"*errors.errorString", text⟩

/-- What the JSON encoder wrote into the response body: an error object, a
weather object, or nothing at all (`Encode` failed before writing). -/
inductive Payload where
  | error (e : ErrorResponse)
  | weather (r : WeatherResponse)
  | empty
  deriving DecidableEq, Repr

/-- What `json.NewEncoder(w).Encode(response)` writes for a `WeatherResponse`.
`encoding/json` refuses a NaN or infinite `float64` with an
`UnsupportedValueError` before it writes anything, and the handler ignores
the error `Encode` returns (main.go, line 99). -/
def encodeWeather (response : WeatherResponse) : Payload :=
  if response.TempC.isFinite && response.TempF.isFinite && response.TempK.isFinite then
    .weather response
  else .empty

/-- The HTTP response written to the `http.ResponseWriter`: the `Content-Type`
header, the status code and the body. -/
structure Response where
  contentType : String
  status : Nat
  body : Payload
  deriving DecidableEq, Repr

def StatusOK : Nat := 200
def StatusNotFound : Nat := 404
def StatusUnprocessableEntity : Nat := 422
def StatusInternalServerError : Nat := 500

/-! ## The environment of a request -/

/-- The collaborators outside the program: the process environment, the
network behind `http.Get` (a response body or an error), and
`encoding/json` decoding a body into each of the two response types (a body
whose read fails is a decoding error). -/
structure World where
  environ : String → Option String
  httpGet : String → Except GoError String
  decodeViaCEP : String → Except GoError ViaCEPResponse
  decodeWeather : String → Except GoError WeatherAPIResponse

/-- Go's `os.Getenv`: the value of the variable, empty when it is not set. -/
def World.Getenv (w : World) (key : String) : String :=
  (w.environ key).getD ""

/-- The effects a function performs on the outside world, in order: a read of
an environment variable with `os.Getenv`, a call of `http.Get` with a URL. -/
inductive Event where
  | getenv (key : String)
  | httpGet (url : String)
  deriving DecidableEq, Repr

/-! ## The program -/

/-- Source: `celsiusToFahrenheit` (main.go, lines 154-156): `celsius*1.8 + 32`. -/
def celsiusToFahrenheit (celsius : F64) : F64 :=
  F64.add (F64.mul celsius (F64.ofRatio 18 10)) (F64.ofInt 32)

/-- The same expression compiled to one fused multiply-add. -/
def celsiusToFahrenheitFused (celsius : F64) : F64 :=
  F64.fma celsius (F64.ofRatio 18 10) (F64.ofInt 32)

/-- Source: `celsiusToKelvin` (main.go, lines 158-160): `celsius + 273`. -/
def celsiusToKelvin (celsius : F64) : F64 :=
  F64.add celsius (F64.ofInt 273)

/-- The URL `getLocationFromCEP` formats for a postal code. -/
def viaCEPURL (cep : String) : String :=
  "https://viacep.com.br/ws/" ++ cep ++ "/json/"

/-- Source: `getLocationFromCEP` (main.go, lines 108-128).  The result pairs
what the function returns with the effects it performed. -/
def getLocationFromCEP (w : World) (cep : String) :
    Except GoError ViaCEPResponse × List Event :=
  let url := viaCEPURL cep
  match w.httpGet url with
  | .error err => (.error err, [.httpGet url])
  | .ok body =>
    match w.decodeViaCEP body with
    | .error err => (.error err, [.httpGet url])
    | .ok location =>
      if location.Erro then (.error (fmtErrorf "CEP not found"), [.httpGet url])
      else (.ok location, [.httpGet url])

/-- The URL `getWeatherData` formats for a credential, a city and a state. -/
def weatherURL (apiKey city state : String) : String :=
  "http://api.weatherapi.com/v1/current.json?key=" ++ apiKey ++ "&q=" ++ city ++ ","
    ++ state ++ "&aqi=no"

/-- Source: `getWeatherData` (main.go, lines 130-152). -/
def getWeatherData (w : World) (city state : String) : Except GoError F64 × List Event :=
  let apiKey := w.Getenv "WEATHER_API_KEY"
  if apiKey = "" then
    (.ok (F64.ofRatio 250 10), [.getenv "WEATHER_API_KEY"])
  else
    let url := weatherURL apiKey city state
    match w.httpGet url with
    | .error err => (.error err, [.getenv "WEATHER_API_KEY", .httpGet url])
    | .ok body =>
      match w.decodeWeather body with
      | .error err => (.error err, [.getenv "WEATHER_API_KEY", .httpGet url])
      | .ok weather => (.ok weather.CurrentTempC, [.getenv "WEATHER_API_KEY", .httpGet url])

/-- Source: `getWeatherByCEP` (main.go, lines 57-100); `cep` is the path
variable `mux.Vars(r)["cep"]`. -/
def getWeatherByCEP (w : World) (cep : String) : Response × List Event :=
  if !isValidCEP cep then
    (⟨"application/json", StatusUnprocessableEntity, .error ⟨"invalid zipcode"⟩⟩, [])
  else
    match getLocationFromCEP w cep with
    | (.error _, t1) =>
      (⟨"application/json", StatusNotFound, .error ⟨"can not find zipcode"⟩⟩, t1)
    | (.ok location, t1) =>
      match getWeatherData w location.Localidade location.UF with
      | (.error _, t2) =>
        (⟨"application/json", StatusInternalServerError,
          .error ⟨"error fetching weather data"⟩⟩, t1 ++ t2)
      | (.ok tempC, t2) =>
        (⟨"application/json", StatusOK,
          encodeWeather ⟨tempC, celsiusToFahrenheit tempC, celsiusToKelvin tempC⟩⟩, t1 ++ t2)

/-! ## The standard library's errors -/

/-- The error of a failed `http.Get`.  net/http documents that any error it
returns is of type `*url.Error`; `text` is what its `Error()` gives. -/
structure UrlError where
  text : String
  deriving DecidableEq, Repr

/-- A `*url.Error` as an `error` value. -/
def UrlError.toError (e : UrlError) : GoError := ⟨"*url.Error", e.text⟩

/-- The errors of `json.Decoder.Decode` on a body received in full, for a
target struct of string, bool and `float64` fields: a `*json.SyntaxError`
(malformed JSON), a `*json.UnmarshalTypeError` (a value of the wrong type for
its field), `io.EOF` (empty body) or `io.ErrUnexpectedEOF` (a value cut
short). -/
inductive DecodeError where
  | malformed (msg : String)
  | typeMismatch (msg : String)
  | eof
  | unexpectedEOF
  deriving DecidableEq, Repr

/-- A decoding error as an `error` value; `io.EOF` and `io.ErrUnexpectedEOF`
are the values of `errors.New("EOF")` and `errors.New("unexpected EOF")`. -/
def DecodeError.toError : DecodeError → GoError
  | .malformed msg => ⟨"*json.SyntaxError", msg⟩
  | .typeMismatch msg => ⟨"*json.UnmarshalTypeError", msg⟩
  | .eof => ⟨"*errors.errorString", "EOF"⟩
  | .unexpectedEOF => ⟨"*errors.errorString", "unexpected EOF"⟩

/-- The collaborators with the error types net/http and encoding/json give
their failures: `get` delivers the body of the response whole or fails with a
`*url.Error`, and the decoders fail with a `DecodeError`. -/
structure StdLib where
  environ : String → Option String
  get : String → Except UrlError String
  decodeViaCEP : String → Except DecodeError ViaCEPResponse
  decodeWeather : String → Except DecodeError WeatherAPIResponse

/-- The world a standard library makes. -/
def StdLib.toWorld (lib : StdLib) : World where
  environ := lib.environ
  httpGet := fun url => (lib.get url).mapError UrlError.toError
  decodeViaCEP := fun body => (lib.decodeViaCEP body).mapError DecodeError.toError
  decodeWeather := fun body => (lib.decodeWeather body).mapError DecodeError.toError

/-- A test the caller of `getLocationFromCEP` can apply to the error it gets
back: the error is an `errors.New` value that reads `CEP not found`. -/
def isNotFoundError (e : GoError) : Bool :=
  e.typeName == "*errors.errorString" && e.msg == "CEP not found"

/-! ## What `http.Get` does with a URL before it reaches the network -/

/-- Go's `strings.Cut` on a one-character separator: the text before its
first occurrence and, when there is one, the text after it. -/
def cutChar (sep : Char) : List Char → List Char × Option (List Char)
  | [] => ([], none)
  | c :: cs => if c = sep then ([], some cs) else (c :: (cutChar sep cs).1, (cutChar sep cs).2)

/-- The pieces of a text between the occurrences of a separator. -/
def splitChar (sep : Char) : List Char → List (List Char)
  | [] => [[]]
  | c :: cs =>
    if c = sep then [] :: splitChar sep cs
    else
      match splitChar sep cs with
      | [] => [[c]]
      | piece :: pieces => (c :: piece) :: pieces

/-- An ASCII control character (net/url `stringContainsCTLByte`). -/
def isCTL (c : Char) : Bool :=
  c.toNat < 0x20 || c.toNat == 0x7f

/-- An ASCII letter. -/
def isAsciiLetter (c : Char) : Bool :=
  (0x41 ≤ c.toNat && c.toNat ≤ 0x5a) || (0x61 ≤ c.toNat && c.toNat ≤ 0x7a)

/-- An ASCII digit. -/
def isAsciiDigit (c : Char) : Bool :=
  0x30 ≤ c.toNat && c.toNat ≤ 0x39

/-- net/url `getScheme`, scanning `todo` with `seen` already accepted: the
scheme and the text after its colon, an empty scheme and the whole text when
there is no scheme, or `none` for a text that starts with a colon (`missing
protocol scheme`). -/
def getSchemeFrom (whole : List Char) : List Char → List Char → Option (List Char × List Char)
  | _, [] => some ([], whole)
  | seen, c :: cs =>
    if isAsciiLetter c then getSchemeFrom whole (seen ++ [c]) cs
    else if isAsciiDigit c || c = '+' || c = '-' || c = '.' then
      if seen = [] then some ([], whole) else getSchemeFrom whole (seen ++ [c]) cs
    else if c = ':' then
      if seen = [] then none else some (seen, cs)
    else some ([], whole)

/-- Source: net/url `getScheme`. -/
def getScheme (raw : List Char) : Option (List Char × List Char) :=
  getSchemeFrom raw [] raw

/-- The fields of Go's `url.URL` that a request to a host is made of. -/
structure URL where
  Scheme : String
  Host : String
  Path : String
  RawQuery : String
  deriving DecidableEq, Repr

/-- What `http.Get(raw)` does before the network is involved: it goes to the
network with a request for the parsed URL, or it returns an error without
sending anything.  `undecided` stands for the URLs this model does not
settle: those with user information, a port, an address literal or any other
character than letters, digits, hyphen and dot in the authority, or with a
percent sign in the path or the fragment. -/
inductive Dispatch where
  | sent (u : URL)
  | refused
  | undecided
  deriving DecidableEq, Repr

/-- A character of a plain host name. -/
def isHostChar (c : Char) : Bool :=
  isAsciiLetter c || isAsciiDigit c || c = '-' || c = '.'

/-- The steps of `url.Parse` and of the client on the text before the
fragment: a control character, a missing scheme, a scheme other than http and
https, and a missing host are refused; the query is what follows the first
question mark, the host what stands between `//` and the next slash. -/
def dispatchParts (u : List Char) (fragment : List Char) : Dispatch :=
  if u.any isCTL then .refused
  else
    match getScheme u with
    | none => .refused
    | some (scheme, rest) =>
      if scheme.map Char.toLower ≠ ['h', 't', 't', 'p']
          ∧ scheme.map Char.toLower ≠ ['h', 't', 't', 'p', 's'] then .refused
      else if ((cutChar '?' rest).1).take 2 ≠ ['/', '/'] then .refused
      else if (((cutChar '?' rest).1).drop 2).takeWhile (fun c => c != '/') = [] then .refused
      else if ((((cutChar '?' rest).1).drop 2).takeWhile (fun c => c != '/')).all isHostChar
          && !((((cutChar '?' rest).1).drop 2).dropWhile (fun c => c != '/')).contains '%'
          && !fragment.contains '%' then
        .sent ⟨String.mk (scheme.map Char.toLower),
          String.mk ((((cutChar '?' rest).1).drop 2).takeWhile (fun c => c != '/')),
          String.mk ((((cutChar '?' rest).1).drop 2).dropWhile (fun c => c != '/')),
          String.mk (((cutChar '?' rest).2).getD [])⟩
      else .undecided

/-- Source: net/http `Get` up to the network: `url.Parse` cuts the fragment
off at the first `#` and parses what stands before it. -/
def dispatch (raw : String) : Dispatch :=
  dispatchParts (cutChar '#' raw.data).1 (((cutChar '#' raw.data).2).getD [])

/-- The key and value pairs of a raw query, as `url.ParseQuery` reads them:
the pieces between `&`, empty ones skipped, each cut at its first `=`.  A
query with a percent sign, a plus sign or a semicolon, which `ParseQuery`
decodes or rejects, is outside this model: `none`. -/
def parseQuery (rawQuery : String) : Option (List (String × String)) :=
  if rawQuery.data.any (fun c => c = '%' || c = '+' || c = ';') then none
  else
    some (((splitChar '&' rawQuery.data).filter fun piece => piece != []).map fun piece =>
      (String.mk (cutChar '=' piece).1, String.mk (((cutChar '=' piece).2).getD [])))

/-- The text after `key=` in the weather URL, for a credential, a city and a
state given as lists of characters. -/
def weatherTail (k c s : List Char) : List Char :=
  k ++ '&' :: 'q' :: '=' :: (c ++ ',' :: (s ++ ['&', 'a', 'q', 'i', '=', 'n', 'o']))

/-- An unreserved URL character: an ASCII letter or digit, `-`, `.`, `_` or `~`. -/
def isUnreserved (c : Char) : Bool :=
  isAsciiLetter c || isAsciiDigit c || c = '-' || c = '.' || c = '_' || c = '~'

/-- A text made of unreserved URL characters only. -/
def urlSafe (s : String) : Bool :=
  s.data.all isUnreserved

/-! ## Sample environments, used to instantiate the theorems -/

/-- A geocoding answer for CEP 01310-100. -/
def paulista : ViaCEPResponse :=
  ⟨"01310-100", "Avenida Paulista", "de 612 a 1510 - lado par", "Bela Vista", "São Paulo", "SP",
    "3550308", "1004", "11", "7107", false⟩

/-- The geocoding answer for an unknown CEP: only the `erro` indicator is set. -/
def unknownCEP : ViaCEPResponse :=
  ⟨"", "", "", "", "", "", "", "", "", "", true⟩

/-- A small standard library: the geocoder knows CEP 01310100, answers the
`erro` indicator for 99999999 and a page of HTML for 00000000; the weather
service answers 28.5 degrees for São Paulo under the credential `k123` and
`1e308` degrees under the credential `k308`; every other request fails in
transport.  `key` is the value of `WEATHER_API_KEY`, if set. -/
def sampleLib (key : Option String) : StdLib where
  environ := fun name => if name = "WEATHER_API_KEY" then key else none
  get := fun url =>
    if url = viaCEPURL "01310100" then .ok "paulista.json"
    else if url = viaCEPURL "99999999" then .ok "erro.json"
    else if url = viaCEPURL "00000000" then .ok "<html>"
    else if url = weatherURL "k123" "São Paulo" "SP" then .ok "weather.json"
    else if url = weatherURL "k308" "São Paulo" "SP" then .ok "weather-1e308.json"
    else .error ⟨"Get \"" ++ url ++ "\": dial tcp: connection refused"⟩
  decodeViaCEP := fun body =>
    if body = "paulista.json" then .ok paulista
    else if body = "erro.json" then .ok unknownCEP
    else .error (.malformed "invalid character '<' looking for beginning of value")
  decodeWeather := fun body =>
    if body = "weather.json" then .ok ⟨F64.ofRatio 285 10⟩
    else if body = "weather-1e308.json" then .ok ⟨.fin false 0x11ccf385ebc8a0 971⟩
    else .error .unexpectedEOF

/-- The world of the sample library. -/
def sampleWorld (key : Option String) : World :=
  (sampleLib key).toWorld

/-- The ten ASCII digit characters. -/
def asciiDigits : List Char := ['0', '1', '2', '3', '4', '5', '6', '7', '8', '9']

/-- The rune at position `i` exists and belongs to `\d`. -/
def digitAt (s : List Char) (i : Nat) : Bool :=
  match s.get? i with
  | some c => inClass [(0x30, 0x39)] c
  | none => false

/-! ## The rounding kernel -/

theorem ilog2Aux_spec : ∀ fuel n : Nat, 0 < n → n ≤ fuel →
    2 ^ F64.ilog2Aux fuel n ≤ n ∧ n < 2 ^ (F64.ilog2Aux fuel n + 1) := by
  intro fuel
  induction fuel with
  | zero => intro n h0 h1; omega
  | succ fuel ih =>
    intro n h0 h1
    unfold F64.ilog2Aux
    by_cases h2 : n < 2
    · simp only [h2, if_true]
      constructor
      · simpa using h0
      · simpa using h2
    · simp only [h2, if_false]
      obtain ⟨ha, hb⟩ := ih (n / 2) (by omega) (by omega)
      rw [Nat.pow_succ]
      rw [Nat.pow_succ] at hb
      constructor
      · omega
      · rw [Nat.pow_succ, Nat.pow_succ]
        omega

theorem ilog2_spec (n : Nat) (h : 0 < n) :
    2 ^ F64.ilog2 n ≤ n ∧ n < 2 ^ (F64.ilog2 n + 1) :=
  ilog2Aux_spec n n h (Nat.le_refl n)

/-- The rounded quotient is within half a unit of the exact one. -/
theorem shiftRoundEven_halfulp (m s : Nat) :
    2 * (F64.shiftRoundEven m s * 2 ^ s) ≤ 2 * m + 2 ^ s
      ∧ 2 * m ≤ 2 * (F64.shiftRoundEven m s * 2 ^ s) + 2 ^ s := by
  have hm := Nat.div_add_mod m (2 ^ s)
  have hr : m % 2 ^ s < 2 ^ s := Nat.mod_lt _ (Nat.pos_pow_of_pos s (by decide))
  have hc : 2 ^ s * (m / 2 ^ s) = m / 2 ^ s * 2 ^ s := Nat.mul_comm _ _
  have h1 : (m / 2 ^ s + 1) * 2 ^ s = m / 2 ^ s * 2 ^ s + 2 ^ s := Nat.succ_mul _ _
  unfold F64.shiftRoundEven
  split
  · rename_i hup
    rw [h1]
    rcases hup with hup | ⟨hup, _⟩ <;> omega
  · rename_i hup
    have : ¬ 2 ^ s < 2 * (m % 2 ^ s) := fun h => hup (Or.inl h)
    omega

/-- On a tie the rounded quotient is even. -/
theorem shiftRoundEven_tie_even (m s : Nat) (h : 2 * (m % 2 ^ s) = 2 ^ s) :
    F64.shiftRoundEven m s % 2 = 0 := by
  unfold F64.shiftRoundEven
  by_cases hodd : m / 2 ^ s % 2 = 1
  · have : 2 ^ s < 2 * (m % 2 ^ s) ∨ (2 * (m % 2 ^ s) = 2 ^ s ∧ m / 2 ^ s % 2 = 1) :=
      Or.inr ⟨h, hodd⟩
    rw [if_pos this]
    omega
  · have : ¬ (2 ^ s < 2 * (m % 2 ^ s) ∨ (2 * (m % 2 ^ s) = 2 ^ s ∧ m / 2 ^ s % 2 = 1)) := by
      rintro (h1 | ⟨_, h2⟩)
      · omega
      · exact hodd h2
    rw [if_neg this]
    omega

/-- No multiple of `2^s` is nearer to `m` than the rounded quotient times `2^s`. -/
theorem shiftRoundEven_nearest (m s k : Nat) :
    ((F64.shiftRoundEven m s * 2 ^ s : Nat) - (m : Int)).natAbs
      ≤ ((k * 2 ^ s : Nat) - (m : Int)).natAbs := by
  obtain ⟨h1, h2⟩ := shiftRoundEven_halfulp m s
  have hp : 0 < 2 ^ s := Nat.pos_pow_of_pos s (by decide)
  rcases Nat.lt_trichotomy k (F64.shiftRoundEven m s) with hk | hk | hk
  · have : (k + 1) * 2 ^ s ≤ F64.shiftRoundEven m s * 2 ^ s := Nat.mul_le_mul_right _ hk
    rw [Nat.succ_mul] at this
    omega
  · rw [hk]
  · have : (F64.shiftRoundEven m s + 1) * 2 ^ s ≤ k * 2 ^ s := Nat.mul_le_mul_right _ hk
    rw [Nat.succ_mul] at this
    omega

theorem shiftRoundEven_bounds (m s : Nat) :
    m / 2 ^ s ≤ F64.shiftRoundEven m s ∧ F64.shiftRoundEven m s ≤ m / 2 ^ s + 1 := by
  unfold F64.shiftRoundEven
  split <;> omega

theorem roundMantissa_bounds (m : Nat) (e : Int) (hm : 0 < m) :
    F64.roundMantissa m e (max (e + (F64.ilog2 m : Int) - 52) (-1074)) ≤ 2 ^ 53
      ∧ (2 ^ 52 ≤ F64.roundMantissa m e (max (e + (F64.ilog2 m : Int) - 52) (-1074))
        ∨ max (e + (F64.ilog2 m : Int) - 52) (-1074) = -1074) := by
  obtain ⟨hlo, hhi⟩ := ilog2_spec m hm
  generalize F64.ilog2 m = L at hlo hhi
  generalize hq : max (e + (L : Int) - 52) (-1074) = q
  have hq1 : e + (L : Int) - 52 ≤ q := by rw [← hq]; exact le_max_left _ _
  have hq2 : q = e + (L : Int) - 52 ∨ q = -1074 := by
    rw [← hq]
    rcases max_choice (e + (L : Int) - 52) (-1074) with h | h
    · exact Or.inl h
    · exact Or.inr h
  unfold F64.roundMantissa
  by_cases hqe : q ≤ e
  · simp only [hqe, if_true]
    generalize ht : (e - q).toNat = t
    have ht1 : (t : Int) = e - q := by rw [← ht]; exact Int.toNat_of_nonneg (by omega)
    constructor
    · have h1 : m * 2 ^ t < 2 ^ (L + 1) * 2 ^ t :=
        Nat.mul_lt_mul_of_pos_right hhi (Nat.pos_pow_of_pos t (by decide))
      rw [← Nat.pow_add] at h1
      have h2 : 2 ^ (L + 1 + t) ≤ 2 ^ 53 := Nat.pow_le_pow_right (by decide) (by omega)
      omega
    · rcases hq2 with h | h
      · left
        have h1 : 2 ^ L * 2 ^ t ≤ m * 2 ^ t := Nat.mul_le_mul_right _ hlo
        rw [← Nat.pow_add] at h1
        have h2 : L + t = 52 := by omega
        rw [h2] at h1
        exact h1
      · exact Or.inr h
  · simp only [hqe, if_false]
    generalize hs : (q - e).toNat = s
    have hs1 : (s : Int) = q - e := by rw [← hs]; exact Int.toNat_of_nonneg (by omega)
    obtain ⟨hb1, hb2⟩ := shiftRoundEven_bounds m s
    have hp : 0 < 2 ^ s := Nat.pos_pow_of_pos s (by decide)
    constructor
    · have h1 : 2 ^ (L + 1) ≤ 2 ^ (53 + s) := Nat.pow_le_pow_right (by decide) (by omega)
      have h2 : m < 2 ^ 53 * 2 ^ s := by
        rw [← Nat.pow_add]
        omega
      have h3 : m / 2 ^ s < 2 ^ 53 := (Nat.div_lt_iff_lt_mul hp).2 h2
      omega
    · rcases hq2 with h | h
      · left
        have h2 : 52 + s = L := by omega
        have h3 : 2 ^ 52 * 2 ^ s ≤ m := by
          rw [← Nat.pow_add, h2]
          exact hlo
        have h4 : 2 ^ 52 ≤ m / 2 ^ s := (Nat.le_div_iff_mul_le hp).2 h3
        omega
      · exact Or.inr h

theorem round_eq (neg : Bool) (m : Nat) (e : Int) (hm : m ≠ 0) :
    F64.round neg m e =
      if F64.roundMantissa m e (max (e + (F64.ilog2 m : Int) - 52) (-1074)) = 2 ^ 53 then
        if 971 < max (e + (F64.ilog2 m : Int) - 52) (-1074) + 1 then .inf neg
        else .fin neg (2 ^ 52) (max (e + (F64.ilog2 m : Int) - 52) (-1074) + 1)
      else
        if 971 < max (e + (F64.ilog2 m : Int) - 52) (-1074) then .inf neg
        else .fin neg (F64.roundMantissa m e (max (e + (F64.ilog2 m : Int) - 52) (-1074)))
          (max (e + (F64.ilog2 m : Int) - 52) (-1074)) := by
  unfold F64.round
  simp only [hm, if_false]

/-- A finite result of `round` is canonical: the sign is kept, the mantissa
is below `2^53`, the exponent lies in `[-1074, 971]`, and the mantissa is
normalised unless the exponent is the subnormal one. -/
theorem round_canonical (neg : Bool) (m : Nat) (e : Int) (n : Bool) (m' : Nat) (e' : Int)
    (h : F64.round neg m e = .fin n m' e') :
    n = neg ∧ m' < 2 ^ 53 ∧ -1074 ≤ e' ∧ e' ≤ 971 ∧ (2 ^ 52 ≤ m' ∨ e' = -1074) := by
  by_cases hm : m = 0
  · subst hm
    simp only [F64.round, if_true, F64.fin.injEq] at h
    obtain ⟨rfl, rfl, rfl⟩ := h
    simp
  · rw [round_eq neg m e hm] at h
    obtain ⟨hb1, hb2⟩ := roundMantissa_bounds m e (Nat.pos_of_ne_zero hm)
    have hq : -1074 ≤ max (e + (F64.ilog2 m : Int) - 52) (-1074) := le_max_right _ _
    generalize max (e + (F64.ilog2 m : Int) - 52) (-1074) = q at h hb1 hb2 hq
    generalize F64.roundMantissa m e q = m2 at h hb1 hb2
    by_cases h53 : m2 = 2 ^ 53
    · simp only [h53, if_true] at h
      by_cases ho : 971 < q + 1
      · simp [ho] at h
      · simp only [ho, if_false, F64.fin.injEq] at h
        obtain ⟨rfl, rfl, rfl⟩ := h
        refine ⟨rfl, by decide, by omega, by omega, Or.inl (Nat.le_refl _)⟩
    · simp only [h53, if_false] at h
      by_cases ho : 971 < q
      · simp [ho] at h
      · simp only [ho, if_false, F64.fin.injEq] at h
        obtain ⟨rfl, rfl, rfl⟩ := h
        refine ⟨rfl, by omega, hq, by omega, hb2⟩

theorem roundMantissa_halfulp (m : Nat) (e q : Int) :
    |(F64.roundMantissa m e q : ℚ) * 2 ^ q - (m : ℚ) * 2 ^ e| ≤ 2 ^ q / 2 := by
  have h2 : (2 : ℚ) ≠ 0 := by norm_num
  have hq0 : (0 : ℚ) < 2 ^ q := zpow_pos (by norm_num) q
  unfold F64.roundMantissa
  by_cases hqe : q ≤ e
  · simp only [hqe, if_true]
    generalize ht : (e - q).toNat = t
    have ht1 : e = (t : Int) + q := by
      have : (t : Int) = e - q := by rw [← ht]; exact Int.toNat_of_nonneg (by omega)
      omega
    have hv : ((m * 2 ^ t : Nat) : ℚ) * 2 ^ q = (m : ℚ) * 2 ^ e := by
      rw [ht1, zpow_add₀ h2, zpow_natCast]
      push_cast
      ring
    rw [hv, sub_self, abs_zero]
    positivity
  · simp only [hqe, if_false]
    generalize hs : (q - e).toNat = s
    have hs1 : q = (s : Int) + e := by
      have : (s : Int) = q - e := by rw [← hs]; exact Int.toNat_of_nonneg (by omega)
      omega
    obtain ⟨ha, hb⟩ := shiftRoundEven_halfulp m s
    generalize F64.shiftRoundEven m s = r at ha hb
    have ha' : (2 : ℚ) * ((r : ℚ) * 2 ^ s) ≤ 2 * (m : ℚ) + 2 ^ s := by exact_mod_cast ha
    have hb' : (2 : ℚ) * (m : ℚ) ≤ 2 * ((r : ℚ) * 2 ^ s) + 2 ^ s := by exact_mod_cast hb
    have he0 : (0 : ℚ) < 2 ^ e := zpow_pos (by norm_num) e
    have hv : (r : ℚ) * 2 ^ q - (m : ℚ) * 2 ^ e = ((r : ℚ) * 2 ^ s - m) * 2 ^ e := by
      rw [hs1, zpow_add₀ h2, zpow_natCast]
      ring
    have hw : (2 : ℚ) ^ q / 2 = (2 ^ s / 2) * 2 ^ e := by
      rw [hs1, zpow_add₀ h2, zpow_natCast]
      ring
    rw [hv, hw, abs_mul, abs_of_pos he0]
    apply mul_le_mul_of_nonneg_right _ (le_of_lt he0)
    rw [abs_le]
    constructor <;> linarith

/-- A finite result of `round` is within half a unit in the last place of the
exact value. -/
theorem round_halfulp (neg : Bool) (m : Nat) (e : Int) (n : Bool) (m' : Nat) (e' : Int)
    (h : F64.round neg m e = .fin n m' e') :
    |(m' : ℚ) * 2 ^ e' - (m : ℚ) * 2 ^ e| ≤ 2 ^ e' / 2 := by
  have h2 : (2 : ℚ) ≠ 0 := by norm_num
  by_cases hm : m = 0
  · subst hm
    simp only [F64.round, if_true, F64.fin.injEq] at h
    obtain ⟨rfl, rfl, rfl⟩ := h
    simp only [Nat.cast_zero, zero_mul, sub_self, abs_zero]
    positivity
  · rw [round_eq neg m e hm] at h
    generalize max (e + (F64.ilog2 m : Int) - 52) (-1074) = q at h
    have hv := roundMantissa_halfulp m e q
    generalize F64.roundMantissa m e q = m2 at h hv
    have hq0 : (0 : ℚ) < 2 ^ q := zpow_pos (by norm_num) q
    by_cases h53 : m2 = 2 ^ 53
    · simp only [h53, if_true] at h
      by_cases ho : 971 < q + 1
      · simp [ho] at h
      · simp only [ho, if_false, F64.fin.injEq] at h
        obtain ⟨rfl, rfl, rfl⟩ := h
        have e1 : ((2 ^ 52 : Nat) : ℚ) * 2 ^ (q + 1) = ((2 ^ 53 : Nat) : ℚ) * 2 ^ q := by
          rw [zpow_add₀ h2]
          push_cast
          ring
        rw [e1]
        rw [h53] at hv
        have e2 : (2 : ℚ) ^ q / 2 ≤ 2 ^ (q + 1) / 2 := by
          rw [zpow_add₀ h2]
          linarith
        exact le_trans hv e2
    · simp only [h53, if_false] at h
      by_cases ho : 971 < q
      · simp [ho] at h
      · simp only [ho, if_false, F64.fin.injEq] at h
        obtain ⟨rfl, rfl, rfl⟩ := h
        exact hv

/-! ## Correct rounding of the operations -/

/-- The sign of a value does not change its distance to a value of the same
sign. -/
theorem signed_sub_abs (neg : Bool) (a b : ℚ) :
    |(if neg then -a else a) - (if neg then -b else b)| = |a - b| := by
  cases neg with
  | false => simp
  | true =>
    simp only [if_true]
    rw [← abs_neg]
    congr 1
    ring

theorem signed_cast (neg : Bool) (m : Nat) :
    ((F64.signed neg m : Int) : ℚ) = if neg then -(m : ℚ) else (m : ℚ) := by
  unfold F64.signed
  cases neg <;> simp

/-- Multiplication of finite values is correctly rounded: a finite product is
within half a unit in the last place of the exact product. -/
theorem mul_halfulp (n1 : Bool) (m1 : Nat) (e1 : Int) (n2 : Bool) (m2 : Nat) (e2 : Int)
    (n : Bool) (m : Nat) (e : Int)
    (h : F64.mul (.fin n1 m1 e1) (.fin n2 m2 e2) = .fin n m e) :
    |(F64.fin n m e).toRat - (F64.fin n1 m1 e1).toRat * (F64.fin n2 m2 e2).toRat|
      ≤ 2 ^ e / 2 := by
  have h2 : (2 : ℚ) ≠ 0 := by norm_num
  unfold F64.mul at h
  obtain ⟨hn, -⟩ := round_canonical _ _ _ _ _ _ h
  have hv := round_halfulp _ _ _ _ _ _ h
  have hp : (F64.fin n1 m1 e1).toRat * (F64.fin n2 m2 e2).toRat
      = if n then -(((m1 * m2 : Nat) : ℚ) * 2 ^ (e1 + e2))
        else ((m1 * m2 : Nat) : ℚ) * 2 ^ (e1 + e2) := by
    simp only [F64.toRat, signed_cast, hn, zpow_add₀ h2]
    cases n1 <;> cases n2 <;> simp <;> ring
  have hr : (F64.fin n m e).toRat = if n then -((m : ℚ) * 2 ^ e) else (m : ℚ) * 2 ^ e := by
    simp only [F64.toRat, signed_cast]
    cases n <;> simp
  rw [hp, hr, signed_sub_abs]
  exact hv

theorem natAbs_cast_rat (s : Int) :
    (s.natAbs : ℚ) = if s < 0 then -(s : ℚ) else (s : ℚ) := by
  by_cases h : s < 0
  · simp only [h, if_true]
    rw [Nat.cast_natAbs, abs_of_neg h]
    push_cast
    rfl
  · simp only [h, if_false]
    rw [Nat.cast_natAbs, abs_of_nonneg (by omega)]

theorem signed_shift (neg : Bool) (m : Nat) (e e0 : Int) (h : e0 ≤ e) :
    ((F64.signed neg (m * 2 ^ (e - e0).toNat) : Int) : ℚ) * 2 ^ e0
      = ((F64.signed neg m : Int) : ℚ) * 2 ^ e := by
  have h2 : (2 : ℚ) ≠ 0 := by norm_num
  generalize ht : (e - e0).toNat = t
  have ht1 : e = (t : Int) + e0 := by
    have : (t : Int) = e - e0 := by rw [← ht]; exact Int.toNat_of_nonneg (by omega)
    omega
  rw [signed_cast, signed_cast, ht1, zpow_add₀ h2, zpow_natCast]
  cases neg <;> simp <;> ring

/-- Addition of finite values is correctly rounded: a finite sum is within
half a unit in the last place of the exact sum. -/
theorem add_halfulp (n1 : Bool) (m1 : Nat) (e1 : Int) (n2 : Bool) (m2 : Nat) (e2 : Int)
    (n : Bool) (m : Nat) (e : Int)
    (h : F64.add (.fin n1 m1 e1) (.fin n2 m2 e2) = .fin n m e) :
    |(F64.fin n m e).toRat - ((F64.fin n1 m1 e1).toRat + (F64.fin n2 m2 e2).toRat)|
      ≤ 2 ^ e / 2 := by
  unfold F64.add at h
  simp only at h
  have hsum : (F64.fin n1 m1 e1).toRat + (F64.fin n2 m2 e2).toRat
      = (((F64.signed n1 (m1 * 2 ^ (e1 - min e1 e2).toNat)
          + F64.signed n2 (m2 * 2 ^ (e2 - min e1 e2).toNat) : Int)) : ℚ) * 2 ^ min e1 e2 := by
    simp only [F64.toRat]
    rw [Int.cast_add, add_mul, signed_shift n1 m1 e1 _ (min_le_left _ _),
      signed_shift n2 m2 e2 _ (min_le_right _ _)]
  generalize F64.signed n1 (m1 * 2 ^ (e1 - min e1 e2).toNat)
    + F64.signed n2 (m2 * 2 ^ (e2 - min e1 e2).toNat) = s at h hsum
  generalize min e1 e2 = e0 at h hsum
  rw [hsum]
  by_cases hs : s = 0
  · simp only [hs, if_true, F64.fin.injEq] at h
    obtain ⟨-, rfl, rfl⟩ := h
    subst hs
    simp only [F64.toRat, signed_cast, Nat.cast_zero, neg_zero, ite_self, zero_mul,
      Int.cast_zero, sub_self, abs_zero]
    positivity
  · simp only [hs, if_false] at h
    obtain ⟨hn, -⟩ := round_canonical _ _ _ _ _ _ h
    have hv := round_halfulp _ _ _ _ _ _ h
    have hr : (F64.fin n m e).toRat = if n then -((m : ℚ) * 2 ^ e) else (m : ℚ) * 2 ^ e := by
      simp only [F64.toRat, signed_cast]
      cases n <;> simp
    have hx : (s : ℚ) * 2 ^ e0
        = if n then -((s.natAbs : ℚ) * 2 ^ e0) else (s.natAbs : ℚ) * 2 ^ e0 := by
      rw [hn, natAbs_cast_rat]
      by_cases hneg : s < 0
      · simp only [hneg, decide_True, if_true]
        ring
      · simp [hneg]
    rw [hr, hx, signed_sub_abs]
    exact hv

/-- Integers below `2^53` in magnitude are represented exactly. -/
theorem ofInt_toRat (z : Int) (hz : z.natAbs < 2 ^ 53) : (F64.ofInt z).toRat = (z : ℚ) := by
  have h2 : (2 : ℚ) ≠ 0 := by norm_num
  unfold F64.ofInt
  by_cases h0 : z.natAbs = 0
  · have : z = 0 := Int.natAbs_eq_zero.1 h0
    subst this
    simp [F64.round, F64.toRat, F64.signed]
  · rw [round_eq _ _ _ h0]
    obtain ⟨hlo, hhi⟩ := ilog2_spec z.natAbs (Nat.pos_of_ne_zero h0)
    have hL : F64.ilog2 z.natAbs ≤ 52 := by
      by_contra hc
      have : 2 ^ 53 ≤ 2 ^ F64.ilog2 z.natAbs := Nat.pow_le_pow_right (by decide) (by omega)
      omega
    generalize F64.ilog2 z.natAbs = L at hlo hhi hL
    have hq : max ((0 : Int) + (L : Int) - 52) (-1074) = (L : Int) - 52 := by
      omega
    rw [hq]
    have hqe : (L : Int) - 52 ≤ 0 := by omega
    have ht : ((0 : Int) - ((L : Int) - 52)).toNat = 52 - L := by omega
    have hm : F64.roundMantissa z.natAbs 0 ((L : Int) - 52) = z.natAbs * 2 ^ (52 - L) := by
      unfold F64.roundMantissa
      simp only [hqe, if_true, ht]
    rw [hm]
    have hlt : z.natAbs * 2 ^ (52 - L) < 2 ^ 53 := by
      have h1 : z.natAbs * 2 ^ (52 - L) < 2 ^ (L + 1) * 2 ^ (52 - L) :=
        Nat.mul_lt_mul_of_pos_right hhi (Nat.pos_pow_of_pos _ (by decide))
      rw [← Nat.pow_add] at h1
      have h3 : L + 1 + (52 - L) = 53 := by omega
      rw [h3] at h1
      exact h1
    have hne : z.natAbs * 2 ^ (52 - L) ≠ 2 ^ 53 := by omega
    have hno : ¬ (971 < (L : Int) - 52) := by omega
    simp only [hne, hno, if_false]
    have hx := signed_shift (decide (z < 0)) z.natAbs 0 ((L : Int) - 52) hqe
    rw [ht] at hx
    simp only [F64.toRat]
    rw [hx, zpow_zero, mul_one, signed_cast, natAbs_cast_rat]
    by_cases hneg : z < 0
    · simp [hneg]
    · simp [hneg]

/-! ## Checks of the arithmetic against known `float64` results -/

theorem F64.known_values :
    F64.ofRatio 1 10 = .fin false 0x1999999999999A (-56)
      ∧ F64.add (F64.ofRatio 1 10) (F64.ofRatio 2 10) = .fin false 0x13333333333334 (-54)
      ∧ F64.ofRatio 3 10 = .fin false 0x13333333333333 (-54)
      ∧ F64.mul (F64.ofRatio 1 10) (F64.ofInt 3) = .fin false 0x13333333333334 (-54)
      ∧ F64.ofInt (2 ^ 53 + 1) = .fin false (2 ^ 52) 1
      ∧ F64.ofInt (2 ^ 53 + 3) = .fin false (2 ^ 52 + 2) 1
      ∧ F64.mul (.fin false (2 ^ 52) 948) (.fin false (2 ^ 52) (-28)) = .inf false
      ∧ F64.add (.fin false (2 ^ 53 - 1) 971) (.fin false (2 ^ 52) 918) = .inf false
      ∧ F64.add (.fin false (2 ^ 53 - 1) 971) (.fin false (2 ^ 53 - 1) 917)
        = .fin false (2 ^ 53 - 1) 971
      ∧ F64.add (F64.ofInt (-5)) (F64.ofInt 5) = .fin false 0 (-1074) := by
  refine ⟨?_, ?_, ?_, ?_, ?_, ?_, ?_, ?_, ?_, ?_⟩ <;> decide

/-! ## Properties of the validator -/

theorem inClass_digit_iff (c : Char) :
    inClass [(0x30, 0x39)] c = true ↔ c ∈ asciiDigits := by
  constructor
  · intro h
    simp only [inClass, List.any_cons, List.any_nil, Bool.or_false, Bool.and_eq_true,
      decide_eq_true_eq] at h
    obtain ⟨h1, h2⟩ := h
    have hc : ∀ d : Char, c.toNat = d.toNat → c = d := by
      intro d hd
      apply Char.ext
      apply UInt32.ext
      exact hd
    have h3 : c.toNat = 48 ∨ c.toNat = 49 ∨ c.toNat = 50 ∨ c.toNat = 51 ∨ c.toNat = 52
        ∨ c.toNat = 53 ∨ c.toNat = 54 ∨ c.toNat = 55 ∨ c.toNat = 56 ∨ c.toNat = 57 := by
      omega
    simp only [asciiDigits, List.mem_cons, List.mem_singleton, List.mem_nil_iff, or_false]
    rcases h3 with h | h | h | h | h | h | h | h | h | h
    · exact Or.inl (hc '0' h)
    · exact Or.inr (Or.inl (hc '1' h))
    · exact Or.inr (Or.inr (Or.inl (hc '2' h)))
    · exact Or.inr (Or.inr (Or.inr (Or.inl (hc '3' h))))
    · exact Or.inr (Or.inr (Or.inr (Or.inr (Or.inl (hc '4' h)))))
    · exact Or.inr (Or.inr (Or.inr (Or.inr (Or.inr (Or.inl (hc '5' h))))))
    · exact Or.inr (Or.inr (Or.inr (Or.inr (Or.inr (Or.inr (Or.inl (hc '6' h)))))))
    · exact Or.inr (Or.inr (Or.inr (Or.inr (Or.inr (Or.inr (Or.inr (Or.inl (hc '7' h))))))))
    · exact Or.inr (Or.inr (Or.inr (Or.inr (Or.inr (Or.inr (Or.inr (Or.inr
        (Or.inl (hc '8' h)))))))))
    · exact Or.inr (Or.inr (Or.inr (Or.inr (Or.inr (Or.inr (Or.inr (Or.inr
        (Or.inr (hc '9' h)))))))))
  · intro h
    simp only [asciiDigits, List.mem_cons, List.mem_singleton, List.mem_nil_iff, or_false] at h
    rcases h with h | h | h | h | h | h | h | h | h | h <;> subst h <;> decide

theorem mem_ends_perlDigit (s : List Char) (p x : Nat) :
    x ∈ perlDigit.ends s p ↔ x = p + 1 ∧ digitAt s p = true := by
  unfold perlDigit Regex.ends digitAt
  cases s.get? p with
  | none => simp
  | some c =>
    by_cases hc : inClass [(0x30, 0x39)] c = true
    · simp [hc]
    · simp [hc]

theorem mem_iterEnds_perlDigit (s : List Char) (n : Nat) :
    ∀ p x, x ∈ iterEnds (perlDigit.ends s) n p ↔
      x = p + n ∧ ∀ k, k < n → digitAt s (p + k) = true := by
  induction n with
  | zero => intro p x; simp [iterEnds]
  | succ n ih =>
    intro p x
    simp only [iterEnds, List.mem_flatMap, mem_ends_perlDigit, ih]
    constructor
    · rintro ⟨a, ⟨rfl, h0⟩, rfl, hk⟩
      refine ⟨by omega, ?_⟩
      intro k hk1
      cases k with
      | zero => simpa using h0
      | succ k =>
        have := hk k (by omega)
        have e : p + 1 + k = p + (k + 1) := by omega
        rw [e] at this
        exact this
    · rintro ⟨rfl, hk⟩
      refine ⟨p + 1, ⟨rfl, by simpa using hk 0 (by omega)⟩, by omega, ?_⟩
      intro k hk1
      have := hk (k + 1) (by omega)
      have e : p + 1 + k = p + (k + 1) := by omega
      rw [e]
      exact this

theorem mem_ends_cepPattern (s : List Char) (i x : Nat) :
    x ∈ cepPattern.ends s i ↔
      i = 0 ∧ x = 8 ∧ s.length = 8 ∧ ∀ k, k < 8 → digitAt s k = true := by
  have e : cepPattern.ends s i = (if i = 0 then [i] else []).flatMap fun a =>
      (iterEnds (perlDigit.ends s) 8 a).flatMap fun b =>
        if b = s.length then [b] else [] := rfl
  rw [e]
  simp only [List.mem_flatMap, mem_iterEnds_perlDigit]
  constructor
  · rintro ⟨a, ha, b, ⟨rfl, hk⟩, hx⟩
    by_cases hi : i = 0
    · subst hi
      simp only [if_true, List.mem_singleton] at ha
      subst ha
      by_cases hl : 0 + 8 = s.length
      · simp only [hl, if_true, List.mem_singleton] at hx
        refine ⟨rfl, by omega, by omega, ?_⟩
        intro k hk8
        simpa using hk k hk8
      · simp [hl] at hx
    · simp [hi] at ha
  · rintro ⟨rfl, rfl, hl, hk⟩
    refine ⟨0, by simp, 8, ⟨by simp, ?_⟩, by simp [hl]⟩
    intro k hk8
    simpa using hk k hk8

theorem matchString_cepPattern (s : String) :
    cepPattern.matchString s = true ↔
      s.data.length = 8 ∧ ∀ k, k < 8 → digitAt s.data k = true := by
  unfold Regex.matchString
  rw [List.any_eq_true]
  constructor
  · rintro ⟨i, _, hi⟩
    have hne : cepPattern.ends s.data i ≠ [] := by
      intro h
      simp [h] at hi
    obtain ⟨x, hx⟩ := List.exists_mem_of_ne_nil _ hne
    exact ((mem_ends_cepPattern _ _ _).1 hx).2.2
  · rintro ⟨hl, hk⟩
    refine ⟨0, by simp, ?_⟩
    have hx : 8 ∈ cepPattern.ends s.data 0 := (mem_ends_cepPattern _ _ _).2 ⟨rfl, rfl, hl, hk⟩
    cases h : cepPattern.ends s.data 0 with
    | nil => rw [h] at hx; simp at hx
    | cons a l => simp

theorem digitAt_all_iff (s : List Char) (n : Nat) (hl : s.length = n) :
    (∀ k, k < n → digitAt s k = true) ↔ ∀ c ∈ s, c ∈ asciiDigits := by
  constructor
  · intro h c hc
    obtain ⟨k, hk, rfl⟩ := List.getElem_of_mem hc
    have := h k (by omega)
    unfold digitAt at this
    rw [List.get?_eq_getElem? , List.getElem?_eq_getElem hk] at this
    exact (inClass_digit_iff _).1 this
  · intro h k hk
    have hk2 : k < s.length := by omega
    unfold digitAt
    rw [List.get?_eq_getElem?, List.getElem?_eq_getElem hk2]
    exact (inClass_digit_iff _).2 (h _ (List.getElem_mem _))

/-- C1: `isValidCEP` accepts exactly the strings of eight ASCII digits; the
empty string, strings of seven or nine digits, strings with a letter, a
hyphen, leading or trailing whitespace (a trailing newline included) and
strings of eight non-ASCII digits are rejected. -/
theorem isValidCEP_iff_eight_ascii_digits :
    (∀ s : String, isValidCEP s = true ↔ s.length = 8 ∧ ∀ c ∈ s.data, c ∈ asciiDigits)
    ∧ isValidCEP "01310100" = true ∧ isValidCEP "12345678" = true
    ∧ isValidCEP "" = false ∧ isValidCEP "1234567" = false
    ∧ isValidCEP "123456789" = false ∧ isValidCEP "abcd1234" = false
    ∧ isValidCEP "1234-567" = false ∧ isValidCEP " 12345678" = false
    ∧ isValidCEP "12345678 " = false ∧ isValidCEP "12345678\n" = false
    ∧ isValidCEP "١٢٣٤٥٦٧٨" = false ∧ isValidCEP "１２３４５６７８" = false := by
  refine ⟨?_, by decide, by decide, by decide, by decide, by decide, by decide, by decide,
    by decide, by decide, by decide, by decide, by decide⟩
  intro s
  unfold isValidCEP
  rw [matchString_cepPattern]
  constructor
  · rintro ⟨hl, hk⟩
    exact ⟨hl, (digitAt_all_iff s.data 8 hl).1 hk⟩
  · rintro ⟨hl, hc⟩
    exact ⟨hl, (digitAt_all_iff s.data 8 hl).2 hc⟩

/-! ## Properties of the resolvers -/

theorem getLocationFromCEP_events (w : World) (cep : String) :
    (getLocationFromCEP w cep).2 = [.httpGet (viaCEPURL cep)] := by
  cases hg : w.httpGet (viaCEPURL cep) with
  | error e => simp [getLocationFromCEP, hg]
  | ok body =>
    cases hd : w.decodeViaCEP body with
    | error e => simp [getLocationFromCEP, hg, hd]
    | ok loc =>
      by_cases hE : loc.Erro = true
      · simp [getLocationFromCEP, hg, hd, hE]
      · simp [getLocationFromCEP, hg, hd, hE]

theorem getenv_mem_getWeatherData (w : World) (city state : String) :
    Event.getenv "WEATHER_API_KEY" ∈ (getWeatherData w city state).2 := by
  by_cases hk : w.Getenv "WEATHER_API_KEY" = ""
  · simp [getWeatherData, hk]
  · cases hg : w.httpGet (weatherURL (w.Getenv "WEATHER_API_KEY") city state) with
    | error e => simp [getWeatherData, hk, hg]
    | ok body =>
      cases hd : w.decodeWeather body with
      | error e => simp [getWeatherData, hk, hg, hd]
      | ok v => simp [getWeatherData, hk, hg, hd]

theorem getWeatherData_events_of_key (w : World) (city state : String)
    (hk : w.Getenv "WEATHER_API_KEY" ≠ "") :
    (getWeatherData w city state).2 =
      [.getenv "WEATHER_API_KEY",
        .httpGet (weatherURL (w.Getenv "WEATHER_API_KEY") city state)] := by
  cases hg : w.httpGet (weatherURL (w.Getenv "WEATHER_API_KEY") city state) with
  | error e => simp [getWeatherData, hk, hg]
  | ok body =>
    cases hd : w.decodeWeather body with
    | error e => simp [getWeatherData, hk, hg, hd]
    | ok v => simp [getWeatherData, hk, hg, hd]

theorem getWeatherData_key_of_error (w : World) (city state : String) (e : GoError)
    (he : (getWeatherData w city state).1 = .error e) :
    w.Getenv "WEATHER_API_KEY" ≠ "" := by
  intro hk
  unfold getWeatherData at he
  simp [hk] at he

/-! ## Properties of the request handler -/

/-- C2: a postal code that `isValidCEP` rejects is answered with status 422
and the single-field body `message = "invalid zipcode"`, and no effect is
performed: neither resolver runs, since each of them performs at least one
effect whenever it is invoked. -/
theorem getWeatherByCEP_invalid_format (w : World) (cep : String)
    (hv : isValidCEP cep = false) :
    getWeatherByCEP w cep =
        (⟨"application/json", 422, .error ⟨"invalid zipcode"⟩⟩, [])
      ∧ (∀ c, (getLocationFromCEP w c).2 ≠ [])
      ∧ (∀ city state, (getWeatherData w city state).2 ≠ []) := by
  refine ⟨?_, ?_, ?_⟩
  · simp [getWeatherByCEP, hv, StatusUnprocessableEntity]
  · intro c
    rw [getLocationFromCEP_events]
    simp
  · intro city state h
    have := getenv_mem_getWeatherData w city state
    rw [h] at this
    simp at this

theorem getWeatherByCEP_invalid_format_witness :
    isValidCEP "123" = false ∧
      getWeatherByCEP (sampleWorld none) "123" =
        (⟨"application/json", 422, .error ⟨"invalid zipcode"⟩⟩, []) :=
  ⟨by decide, (getWeatherByCEP_invalid_format (sampleWorld none) "123" (by decide)).1⟩

/-- C3: for a well-formed postal code, any error of the location resolver is
answered with status 404 and body `message = "can not find zipcode"`, the
same response whatever the error; the only effect is the geocoding request,
so the weather resolver, whose every invocation reads `WEATHER_API_KEY`, did
not run. -/
theorem getWeatherByCEP_location_error (w : World) (cep : String) (e : GoError)
    (hv : isValidCEP cep = true) (he : (getLocationFromCEP w cep).1 = .error e) :
    getWeatherByCEP w cep =
        (⟨"application/json", 404, .error ⟨"can not find zipcode"⟩⟩,
          [.httpGet (viaCEPURL cep)])
      ∧ Event.getenv "WEATHER_API_KEY" ∉ (getWeatherByCEP w cep).2
      ∧ (∀ city state, Event.getenv "WEATHER_API_KEY" ∈ (getWeatherData w city state).2) := by
  have hp : getLocationFromCEP w cep = (.error e, [.httpGet (viaCEPURL cep)]) :=
    Prod.ext he (getLocationFromCEP_events w cep)
  have h1 : getWeatherByCEP w cep =
      (⟨"application/json", 404, .error ⟨"can not find zipcode"⟩⟩,
        [.httpGet (viaCEPURL cep)]) := by
    simp [getWeatherByCEP, hv, hp, StatusNotFound]
  refine ⟨h1, ?_, getenv_mem_getWeatherData w⟩
  rw [h1]
  simp

theorem getWeatherByCEP_location_error_witness :
    (getLocationFromCEP (sampleWorld none) "99999999").1
        = .error (fmtErrorf "CEP not found") ∧
      getWeatherByCEP (sampleWorld none) "99999999" =
        (⟨"application/json", 404, .error ⟨"can not find zipcode"⟩⟩,
          [.httpGet "https://viacep.com.br/ws/99999999/json/"]) ∧
      getWeatherByCEP (sampleWorld none) "12345678" =
        (⟨"application/json", 404, .error ⟨"can not find zipcode"⟩⟩,
          [.httpGet "https://viacep.com.br/ws/12345678/json/"]) ∧
      getWeatherByCEP (sampleWorld none) "00000000" =
        (⟨"application/json", 404, .error ⟨"can not find zipcode"⟩⟩,
          [.httpGet "https://viacep.com.br/ws/00000000/json/"]) :=
  ⟨by decide,
    (getWeatherByCEP_location_error (sampleWorld none) "99999999"
      (fmtErrorf "CEP not found") (by decide) (by decide)).1,
    (getWeatherByCEP_location_error (sampleWorld none) "12345678"
      ⟨"*url.Error",
        "Get \"https://viacep.com.br/ws/12345678/json/\": dial tcp: connection refused"⟩
      (by decide) (by decide)).1,
    (getWeatherByCEP_location_error (sampleWorld none) "00000000"
      ⟨"*json.SyntaxError", "invalid character '<' looking for beginning of value"⟩
      (by decide) (by decide)).1⟩

/-- C4: for a well-formed postal code whose location resolves, an error of
the weather resolver, which is called with the location's city and state, is
answered with status 500 and the body `message = "error fetching weather
data"`: an error payload, with no temperature field and nothing of the
underlying error. -/
theorem getWeatherByCEP_weather_error (w : World) (cep : String)
    (location : ViaCEPResponse) (e : GoError)
    (hv : isValidCEP cep = true)
    (hl : (getLocationFromCEP w cep).1 = .ok location)
    (hw : (getWeatherData w location.Localidade location.UF).1 = .error e) :
    (getWeatherByCEP w cep).1 =
        ⟨"application/json", 500, .error ⟨"error fetching weather data"⟩⟩
      ∧ (getWeatherByCEP w cep).2 =
        [.httpGet (viaCEPURL cep), .getenv "WEATHER_API_KEY",
          .httpGet (weatherURL (w.Getenv "WEATHER_API_KEY") location.Localidade location.UF)] := by
  have hp : getLocationFromCEP w cep = (.ok location, [.httpGet (viaCEPURL cep)]) :=
    Prod.ext hl (getLocationFromCEP_events w cep)
  have hk := getWeatherData_key_of_error w _ _ e hw
  have hq : getWeatherData w location.Localidade location.UF =
      (.error e, [.getenv "WEATHER_API_KEY",
        .httpGet (weatherURL (w.Getenv "WEATHER_API_KEY") location.Localidade location.UF)]) :=
    Prod.ext hw (getWeatherData_events_of_key w _ _ hk)
  constructor
  · simp [getWeatherByCEP, hv, hp, hq, StatusInternalServerError]
  · simp [getWeatherByCEP, hv, hp, hq]

theorem getWeatherByCEP_weather_error_witness :
    (getWeatherByCEP (sampleWorld (some "expired")) "01310100").1 =
        ⟨"application/json", 500, .error ⟨"error fetching weather data"⟩⟩ ∧
      (getWeatherByCEP (sampleWorld (some "expired")) "01310100").2 =
        [.httpGet "https://viacep.com.br/ws/01310100/json/", .getenv "WEATHER_API_KEY",
          .httpGet
            "http://api.weatherapi.com/v1/current.json?key=expired&q=São Paulo,SP&aqi=no"] :=
  getWeatherByCEP_weather_error (sampleWorld (some "expired")) "01310100" paulista
    ⟨"*url.Error",
      "Get \"http://api.weatherapi.com/v1/current.json?key=expired&q=São Paulo,SP&aqi=no\""
        ++ ": dial tcp: connection refused"⟩
    (by decide) (by decide) (by decide)

/-- The handler answers 200 exactly when validation, location resolution and
temperature resolution all succeed. -/
theorem getWeatherByCEP_status_ok_iff (w : World) (cep : String) :
    (getWeatherByCEP w cep).1.status = 200 ↔
      isValidCEP cep = true ∧ ∃ location, (getLocationFromCEP w cep).1 = .ok location ∧
        ∃ tempC, (getWeatherData w location.Localidade location.UF).1 = .ok tempC := by
  by_cases hv : isValidCEP cep = true
  · rcases hL : getLocationFromCEP w cep with ⟨rl, t1⟩
    cases rl with
    | error e =>
      simp [getWeatherByCEP, hv, hL, StatusNotFound]
    | ok location =>
      rcases hW : getWeatherData w location.Localidade location.UF with ⟨rw, t2⟩
      cases rw with
      | error e =>
        simp [getWeatherByCEP, hv, hL, hW, StatusInternalServerError]
      | ok tempC =>
        simp [getWeatherByCEP, hv, hL, hW, StatusOK]
  · simp [getWeatherByCEP, hv, StatusUnprocessableEntity]

/-- The body of a 200 response is what the encoder writes for the resolver's
Celsius value and its two conversions: that object when the three values are
finite, nothing otherwise. -/
theorem getWeatherByCEP_ok_body (w : World) (cep : String)
    (h : (getWeatherByCEP w cep).1.status = 200) :
    ∃ location tempC, (getLocationFromCEP w cep).1 = .ok location ∧
      (getWeatherData w location.Localidade location.UF).1 = .ok tempC ∧
      (getWeatherByCEP w cep).1.body =
        encodeWeather ⟨tempC, celsiusToFahrenheit tempC, celsiusToKelvin tempC⟩ ∧
      (tempC.isFinite = true → (celsiusToFahrenheit tempC).isFinite = true →
        (celsiusToKelvin tempC).isFinite = true →
        (getWeatherByCEP w cep).1.body =
          .weather ⟨tempC, celsiusToFahrenheit tempC, celsiusToKelvin tempC⟩) := by
  by_cases hv : isValidCEP cep = true
  · rcases hL : getLocationFromCEP w cep with ⟨rl, t1⟩
    cases rl with
    | error e =>
      simp [getWeatherByCEP, hv, hL, StatusNotFound] at h
    | ok location =>
      rcases hW : getWeatherData w location.Localidade location.UF with ⟨rw, t2⟩
      cases rw with
      | error e =>
        simp [getWeatherByCEP, hv, hL, hW, StatusInternalServerError] at h
      | ok tempC =>
        refine ⟨location, tempC, rfl, by rw [hW], ?_, ?_⟩
        · simp [getWeatherByCEP, hv, hL, hW]
        · intro h1 h2 h3
          simp [getWeatherByCEP, hv, hL, hW, encodeWeather, h1, h2, h3]
  · simp [getWeatherByCEP, hv, StatusUnprocessableEntity] at h

/-- C5, at the failing input: CEP 01310100 resolves, the weather service
answers `temp_c = 1e308`, and validation, location and temperature resolution
all succeed; `celsiusToFahrenheit` overflows to `+Inf`, the encoder writes
nothing, and the response is a 200 with an empty body: no `temp_C`, `temp_F`
or `temp_K`. -/
theorem getWeatherByCEP_overflow_empty_body :
    isValidCEP "01310100" = true
      ∧ (getLocationFromCEP (sampleWorld (some "k308")) "01310100").1 = .ok paulista
      ∧ (getWeatherData (sampleWorld (some "k308")) paulista.Localidade paulista.UF).1
          = .ok (.fin false 0x11ccf385ebc8a0 971)
      ∧ (F64.fin false 0x11ccf385ebc8a0 971).isFinite = true
      ∧ celsiusToFahrenheit (.fin false 0x11ccf385ebc8a0 971) = .inf false
      ∧ celsiusToFahrenheitFused (.fin false 0x11ccf385ebc8a0 971) = .inf false
      ∧ (getWeatherByCEP (sampleWorld (some "k308")) "01310100").1
          = ⟨"application/json", 200, .empty⟩ := by
  refine ⟨?_, ?_, ?_, ?_, ?_, ?_, ?_⟩ <;> decide

/-- C6: with `WEATHER_API_KEY` unset or empty, `getWeatherData` returns the
fixed temperature 25.0 and no error for every city and state; its only effect
is reading the variable, so no network request is made. -/
theorem getWeatherData_without_credential (w : World) (city state : String)
    (h : w.environ "WEATHER_API_KEY" = none ∨ w.environ "WEATHER_API_KEY" = some "") :
    getWeatherData w city state = (.ok (F64.ofInt 25), [.getenv "WEATHER_API_KEY"])
      ∧ ∀ url, Event.httpGet url ∉ (getWeatherData w city state).2 := by
  have hk : w.Getenv "WEATHER_API_KEY" = "" := by
    unfold World.Getenv
    rcases h with h | h <;> simp [h]
  have h25 : F64.ofRatio 250 10 = F64.ofInt 25 := by decide
  have h1 : getWeatherData w city state =
      (.ok (F64.ofInt 25), [.getenv "WEATHER_API_KEY"]) := by
    simp [getWeatherData, hk, h25]
  refine ⟨h1, ?_⟩
  intro url
  rw [h1]
  simp

theorem getWeatherData_without_credential_witness :
    getWeatherData (sampleWorld none) "São Paulo" "SP" =
        (.ok (.fin false 0x19000000000000 (-48)), [.getenv "WEATHER_API_KEY"]) ∧
      getWeatherData (sampleWorld (some "")) "Recife" "PE" =
        (.ok (.fin false 0x19000000000000 (-48)), [.getenv "WEATHER_API_KEY"]) :=
  ⟨(getWeatherData_without_credential (sampleWorld none) "São Paulo" "SP"
      (Or.inl (by decide))).1,
    (getWeatherData_without_credential (sampleWorld (some "")) "Recife" "PE"
      (Or.inr (by decide))).1⟩

theorem isNotFoundError_url (e : UrlError) : isNotFoundError e.toError = false := by
  simp [isNotFoundError, UrlError.toError]

theorem isNotFoundError_decode (e : DecodeError) : isNotFoundError e.toError = false := by
  cases e <;> simp [isNotFoundError, DecodeError.toError]

/-- C9: when the geocoding body decodes with `erro` set, `getLocationFromCEP`
returns no location and the error `CEP not found`, whatever the other fields
hold.  A failed transport returns the `*url.Error` of `http.Get` and an
undecodable body the error of `Decode`, both unchanged, and the caller tells
the not-found error apart from them: the test `isNotFoundError` holds of the
not-found error and of no error the resolver returns on the two other
paths. -/
theorem getLocationFromCEP_not_found (w : World) (cep body : String)
    (location : ViaCEPResponse)
    (hget : w.httpGet (viaCEPURL cep) = .ok body)
    (hdec : w.decodeViaCEP body = .ok location)
    (herro : location.Erro = true) :
    (getLocationFromCEP w cep).1 = .error (fmtErrorf "CEP not found")
      ∧ isNotFoundError (fmtErrorf "CEP not found") = true
      ∧ (∀ (lib : StdLib) (cep2 : String) (e : UrlError),
          lib.get (viaCEPURL cep2) = .error e →
            (getLocationFromCEP lib.toWorld cep2).1 = .error e.toError ∧
            isNotFoundError e.toError = false)
      ∧ (∀ (lib : StdLib) (cep2 body2 : String) (e : DecodeError),
          lib.get (viaCEPURL cep2) = .ok body2 → lib.decodeViaCEP body2 = .error e →
            (getLocationFromCEP lib.toWorld cep2).1 = .error e.toError ∧
            isNotFoundError e.toError = false)
      ∧ (∀ (lib : StdLib) (cep2 : String) (e : GoError),
          (getLocationFromCEP lib.toWorld cep2).1 = .error e →
            (isNotFoundError e = true ↔
              ∃ body2 location2, lib.get (viaCEPURL cep2) = .ok body2 ∧
                lib.decodeViaCEP body2 = .ok location2 ∧ location2.Erro = true)) := by
  refine ⟨?_, by decide, ?_, ?_, ?_⟩
  · simp [getLocationFromCEP, hget, hdec, herro]
  · intro lib cep2 e hg
    refine ⟨?_, isNotFoundError_url e⟩
    simp [getLocationFromCEP, StdLib.toWorld, hg, Except.mapError]
  · intro lib cep2 body2 e hg hd
    refine ⟨?_, isNotFoundError_decode e⟩
    simp [getLocationFromCEP, StdLib.toWorld, hg, hd, Except.mapError]
  · intro lib cep2 e he
    cases hg : lib.get (viaCEPURL cep2) with
    | error ue =>
      have h2 : e = ue.toError := by
        simp [getLocationFromCEP, StdLib.toWorld, hg, Except.mapError] at he
        exact he.symm
      subst h2
      simp [isNotFoundError_url]
    | ok body2 =>
      cases hd : lib.decodeViaCEP body2 with
      | error de =>
        have h2 : e = de.toError := by
          simp [getLocationFromCEP, StdLib.toWorld, hg, hd, Except.mapError] at he
          exact he.symm
        subst h2
        simp [isNotFoundError_decode, hd]
      | ok location2 =>
        by_cases hE : location2.Erro = true
        · have h2 : e = fmtErrorf "CEP not found" := by
            simp [getLocationFromCEP, StdLib.toWorld, hg, hd, Except.mapError, hE] at he
            exact he.symm
          subst h2
          simp [hE, hd, show isNotFoundError (fmtErrorf "CEP not found") = true by decide]
        · simp [getLocationFromCEP, StdLib.toWorld, hg, hd, Except.mapError, hE] at he

theorem getLocationFromCEP_not_found_witness :
    (getLocationFromCEP (sampleWorld none) "99999999").1
        = .error ⟨"*errors.errorString", "CEP not found"⟩ ∧
      (getLocationFromCEP (sampleWorld none) "12345678").1
        = .error ⟨"*url.Error",
          "Get \"https://viacep.com.br/ws/12345678/json/\": dial tcp: connection refused"⟩ ∧
      (getLocationFromCEP (sampleWorld none) "00000000").1
        = .error ⟨"*json.SyntaxError",
          "invalid character '<' looking for beginning of value"⟩ :=
  have h := getLocationFromCEP_not_found (sampleWorld none) "99999999" "erro.json" unknownCEP
    (by decide) (by decide) (by decide)
  ⟨h.1, (h.2.2.1 (sampleLib none) "12345678" _ (by decide)).1,
    (h.2.2.2.1 (sampleLib none) "00000000" "<html>"
      (.malformed "invalid character '<' looking for beginning of value")
      (by decide) (by decide)).1⟩

/-! ## The weather request -/

theorem cutChar_of_not_mem (sep : Char) (l : List Char) (h : sep ∉ l) :
    cutChar sep l = (l, none) := by
  induction l with
  | nil => rfl
  | cons c cs ih =>
    have hc : c ≠ sep := fun e => h (by simp [e])
    have hcs : sep ∉ cs := fun e => h (by simp [e])
    simp [cutChar, hc, ih hcs]

theorem cutChar_append (sep : Char) (l r : List Char) (h : sep ∉ l) :
    cutChar sep (l ++ sep :: r) = (l, some r) := by
  induction l with
  | nil => simp [cutChar]
  | cons c cs ih =>
    have hc : c ≠ sep := fun e => h (by simp [e])
    have hcs : sep ∉ cs := fun e => h (by simp [e])
    simp [cutChar, hc, ih hcs]

theorem splitChar_of_not_mem (sep : Char) (l : List Char) (h : sep ∉ l) :
    splitChar sep l = [l] := by
  induction l with
  | nil => rfl
  | cons c cs ih =>
    have hc : c ≠ sep := fun e => h (by simp [e])
    have hcs : sep ∉ cs := fun e => h (by simp [e])
    simp [splitChar, hc, ih hcs]

theorem splitChar_append (sep : Char) (l r : List Char) (h : sep ∉ l) :
    splitChar sep (l ++ sep :: r) = l :: splitChar sep r := by
  induction l with
  | nil => simp [splitChar]
  | cons c cs ih =>
    have hc : c ≠ sep := fun e => h (by simp [e])
    have hcs : sep ∉ cs := fun e => h (by simp [e])
    simp [splitChar, hc, ih hcs]

/-- An unreserved character is none of the characters a URL gives a meaning
to, and no control character. -/
theorem isUnreserved_plain (c : Char) (h : isUnreserved c = true) :
    isCTL c = false ∧ c ≠ '#' ∧ c ≠ '?' ∧ c ≠ '&' ∧ c ≠ '=' ∧ c ≠ '%' ∧ c ≠ '+' ∧ c ≠ ';' := by
  have hne : ∀ d : Char, isUnreserved d = false → c ≠ d := by
    intro d hd e
    rw [e, hd] at h
    exact Bool.noConfusion h
  refine ⟨?_, hne _ (by decide), hne _ (by decide), hne _ (by decide), hne _ (by decide),
    hne _ (by decide), hne _ (by decide), hne _ (by decide)⟩
  simp only [isUnreserved, isAsciiLetter, isAsciiDigit, Bool.or_eq_true, Bool.and_eq_true,
    decide_eq_true_eq] at h
  simp only [isCTL, Bool.or_eq_false_iff, decide_eq_false_iff_not, beq_eq_false_iff_ne]
  rcases h with ((((h | h) | h) | h) | h) | h
  · rcases h with h | h <;> omega
  · omega
  · subst h; decide
  · subst h; decide
  · subst h; decide
  · subst h; decide


theorem any_false_of_forall (p : Char → Bool) (l : List Char)
    (h : ∀ c ∈ l, p c = false) : l.any p = false := by
  induction l with
  | nil => rfl
  | cons c cs ih =>
    simp only [List.any_cons, Bool.or_eq_false_iff]
    exact ⟨h c (by simp), ih fun d hd => h d (by simp [hd])⟩

theorem weatherURL_data (apiKey city state : String) :
    (weatherURL apiKey city state).data =
      "http://api.weatherapi.com/v1/current.json?key=".data
        ++ weatherTail apiKey.data city.data state.data := by
  unfold weatherURL weatherTail
  simp only [String.data_append, List.append_assoc]
  rfl

theorem weatherTail_plain (k c s : List Char)
    (hk : ∀ x ∈ k, isUnreserved x = true) (hc : ∀ x ∈ c, isUnreserved x = true)
    (hs : ∀ x ∈ s, isUnreserved x = true) :
    (weatherTail k c s).any isCTL = false ∧ '#' ∉ weatherTail k c s
      ∧ (weatherTail k c s).any (fun x => x = '%' || x = '+' || x = ';') = false := by
  have key : ∀ x ∈ weatherTail k c s,
      isUnreserved x = true ∨ x = '&' ∨ x = 'q' ∨ x = '=' ∨ x = ',' ∨ x = 'a' ∨ x = 'i'
        ∨ x = 'n' ∨ x = 'o' := by
    intro x hx
    simp only [weatherTail, List.mem_append, List.mem_cons, List.mem_singleton,
      List.mem_nil_iff, or_false] at hx
    rcases hx with h | h | h | h | h | h | h | h | h | h | h | h | h | h
    · exact Or.inl (hk x h)
    · simp [h]
    · simp [h]
    · simp [h]
    · exact Or.inl (hc x h)
    · simp [h]
    · exact Or.inl (hs x h)
    · simp [h]
    · simp [h]
    · simp [h]
    · simp [h]
    · simp [h]
    · simp [h]
    · simp [h]
  have each : ∀ x ∈ weatherTail k c s, isCTL x = false ∧ x ≠ '#'
      ∧ (decide (x = '%') || decide (x = '+') || decide (x = ';')) = false := by
    intro x hx
    rcases key x hx with h | h | h | h | h | h | h | h | h
    · obtain ⟨h1, h2, -, -, -, h6, h7, h8⟩ := isUnreserved_plain x h
      exact ⟨h1, h2, by simp [h6, h7, h8]⟩
    all_goals (subst h; decide)
  refine ⟨any_false_of_forall _ _ fun x hx => (each x hx).1, ?_,
    any_false_of_forall _ _ fun x hx => (each x hx).2.2⟩
  intro hmem
  exact (each '#' hmem).2.1 rfl

theorem dispatchParts_weather (t : List Char) (hctl : t.any isCTL = false) :
    dispatchParts ("http://api.weatherapi.com/v1/current.json?key=".data ++ t) [] =
      .sent ⟨"http", "api.weatherapi.com", "/v1/current.json",
        String.mk ('k' :: 'e' :: 'y' :: '=' :: t)⟩ := by
  have h1 : ("http://api.weatherapi.com/v1/current.json?key=".data ++ t).any isCTL = false := by
    rw [List.any_append, hctl]
    decide
  have h2 : getScheme ("http://api.weatherapi.com/v1/current.json?key=".data ++ t) =
      some (['h', 't', 't', 'p'], "//api.weatherapi.com/v1/current.json?key=".data ++ t) := rfl
  have h3 : cutChar '?' ("//api.weatherapi.com/v1/current.json?key=".data ++ t) =
      ("//api.weatherapi.com/v1/current.json".data, some ('k' :: 'e' :: 'y' :: '=' :: t)) := rfl
  unfold dispatchParts
  rw [h1]
  simp only [h2, h3]
  rfl


theorem parseQuery_weather (k c s : List Char)
    (hk : ∀ x ∈ k, isUnreserved x = true) (hc : ∀ x ∈ c, isUnreserved x = true)
    (hs : ∀ x ∈ s, isUnreserved x = true) :
    parseQuery (String.mk ('k' :: 'e' :: 'y' :: '=' :: weatherTail k c s)) =
      some [("key", String.mk k), ("q", String.mk (c ++ ',' :: s)), ("aqi", "no")] := by
  have hamp : ∀ l : List Char, (∀ x ∈ l, isUnreserved x = true) → '&' ∉ l := by
    intro l hl hmem
    exact (isUnreserved_plain _ (hl _ hmem)).2.2.2.1 rfl
  have hany : ('k' :: 'e' :: 'y' :: '=' :: weatherTail k c s).any
      (fun x => x = '%' || x = '+' || x = ';') = false := by
    simp only [List.any_cons, (weatherTail_plain k c s hk hc hs).2.2]
    decide
  have h1 : '&' ∉ 'k' :: 'e' :: 'y' :: '=' :: k := by
    intro hmem
    simp only [List.mem_cons] at hmem
    rcases hmem with h | h | h | h | h
    · exact absurd h (by decide)
    · exact absurd h (by decide)
    · exact absurd h (by decide)
    · exact absurd h (by decide)
    · exact hamp k hk h
  have h2 : '&' ∉ 'q' :: '=' :: (c ++ ',' :: s) := by
    intro hmem
    simp only [List.mem_cons, List.mem_append] at hmem
    rcases hmem with h | h | h | h | h
    · exact absurd h (by decide)
    · exact absurd h (by decide)
    · exact hamp c hc h
    · exact absurd h (by decide)
    · exact hamp s hs h
  have hform : 'k' :: 'e' :: 'y' :: '=' :: weatherTail k c s =
      ('k' :: 'e' :: 'y' :: '=' :: k) ++ '&' ::
        (('q' :: '=' :: (c ++ ',' :: s)) ++ '&' :: ['a', 'q', 'i', '=', 'n', 'o']) := by
    simp [weatherTail]
  have hsplit : splitChar '&' ('k' :: 'e' :: 'y' :: '=' :: weatherTail k c s) =
      ['k' :: 'e' :: 'y' :: '=' :: k, 'q' :: '=' :: (c ++ ',' :: s),
        ['a', 'q', 'i', '=', 'n', 'o']] := by
    rw [hform, splitChar_append _ _ _ h1, splitChar_append _ _ _ h2,
      splitChar_of_not_mem _ _ (by decide)]
  unfold parseQuery
  simp only [hany, hsplit]
  rfl

/-- C10, as the claim states it, fails.  With the credential `k123`, the city
`Recife` and the state `PE` the single request has scheme `http`, not
`https`.  The city and state are put into the URL unescaped: for the city
`Rio#1` the request's `q` parameter is `Rio`, and for a city with a line
break `http.Get` sends no request at all. -/
theorem getWeatherData_request_not_https :
    (sampleWorld (some "k123")).Getenv "WEATHER_API_KEY" = "k123"
      ∧ (getWeatherData (sampleWorld (some "k123")) "Recife" "PE").2 =
        [.getenv "WEATHER_API_KEY",
          .httpGet "http://api.weatherapi.com/v1/current.json?key=k123&q=Recife,PE&aqi=no"]
      ∧ dispatch "http://api.weatherapi.com/v1/current.json?key=k123&q=Recife,PE&aqi=no" =
        .sent ⟨"http", "api.weatherapi.com", "/v1/current.json", "key=k123&q=Recife,PE&aqi=no"⟩
      ∧ ("http" : String) ≠ "https"
      ∧ dispatch (weatherURL "k123" "Rio#1" "RJ") =
        .sent ⟨"http", "api.weatherapi.com", "/v1/current.json", "key=k123&q=Rio"⟩
      ∧ parseQuery "key=k123&q=Rio" = some [("key", "k123"), ("q", "Rio")]
      ∧ dispatch (weatherURL "k123" "Rio\n" "RJ") = .refused := by
  refine ⟨?_, ?_, ?_, ?_, ?_, ?_, ?_⟩ <;> decide

/-- C10, amended: for a non-empty credential `k`, a city `c` and a state `s`
made of unreserved URL characters, `getWeatherData` reads the credential and
issues exactly one request, over `http`, to host `api.weatherapi.com` and path
`/v1/current.json`, whose query gives `key = k` and `q = c,s`. -/
theorem getWeatherData_request (w : World) (city state : String)
    (hk : w.Getenv "WEATHER_API_KEY" ≠ "")
    (hsafe : urlSafe (w.Getenv "WEATHER_API_KEY") = true ∧ urlSafe city = true
      ∧ urlSafe state = true) :
    (getWeatherData w city state).2 =
        [.getenv "WEATHER_API_KEY",
          .httpGet (weatherURL (w.Getenv "WEATHER_API_KEY") city state)]
      ∧ dispatch (weatherURL (w.Getenv "WEATHER_API_KEY") city state) =
        .sent ⟨"http", "api.weatherapi.com", "/v1/current.json",
          "key=" ++ w.Getenv "WEATHER_API_KEY" ++ "&q=" ++ city ++ "," ++ state ++ "&aqi=no"⟩
      ∧ parseQuery
          ("key=" ++ w.Getenv "WEATHER_API_KEY" ++ "&q=" ++ city ++ "," ++ state ++ "&aqi=no") =
        some [("key", w.Getenv "WEATHER_API_KEY"), ("q", city ++ "," ++ state), ("aqi", "no")] := by
  obtain ⟨h1, h2, h3⟩ := hsafe
  have ht := getWeatherData_events_of_key w city state hk
  generalize w.Getenv "WEATHER_API_KEY" = k at hk h1 ht ⊢
  have hkd : ∀ x ∈ k.data, isUnreserved x = true := by
    simpa [urlSafe, List.all_eq_true] using h1
  have hcd : ∀ x ∈ city.data, isUnreserved x = true := by
    simpa [urlSafe, List.all_eq_true] using h2
  have hsd : ∀ x ∈ state.data, isUnreserved x = true := by
    simpa [urlSafe, List.all_eq_true] using h3
  obtain ⟨p1, p2, -⟩ := weatherTail_plain k.data city.data state.data hkd hcd hsd
  have hq : ("key=" ++ k ++ "&q=" ++ city ++ "," ++ state ++ "&aqi=no" : String) =
      String.mk ('k' :: 'e' :: 'y' :: '=' :: weatherTail k.data city.data state.data) := by
    apply String.ext
    simp only [String.data_append, List.append_assoc, weatherTail]
    rfl
  refine ⟨ht, ?_, ?_⟩
  · unfold dispatch
    have hhash : '#' ∉ (weatherURL k city state).data := by
      rw [weatherURL_data]
      intro hmem
      rcases List.mem_append.1 hmem with h | h
      · exact absurd h (by decide)
      · exact p2 h
    rw [cutChar_of_not_mem _ _ hhash]
    simp only [Option.getD_none]
    rw [weatherURL_data, dispatchParts_weather _ p1, hq]
  · rw [hq, parseQuery_weather _ _ _ hkd hcd hsd]
    have e1 : String.mk (city.data ++ ',' :: state.data) = city ++ "," ++ state := by
      apply String.ext
      simp only [String.data_append, List.append_assoc]
      rfl
    rw [e1]

theorem getWeatherData_request_witness :
    (getWeatherData (sampleWorld (some "k123")) "Recife" "PE").2 =
        [.getenv "WEATHER_API_KEY",
          .httpGet "http://api.weatherapi.com/v1/current.json?key=k123&q=Recife,PE&aqi=no"]
      ∧ parseQuery "key=k123&q=Recife,PE&aqi=no" =
        some [("key", "k123"), ("q", "Recife,PE"), ("aqi", "no")] :=
  have h := getWeatherData_request (sampleWorld (some "k123")) "Recife" "PE"
    (by decide) (by decide)
  ⟨h.1, h.2.2⟩

/-- End to end: CEP 01310100 with no weather credential is answered 200 with
25, 77 and 298 degrees. -/
theorem getWeatherByCEP_sample_without_credential :
    (getWeatherByCEP (sampleWorld none) "01310100").1 =
      ⟨"application/json", 200, .weather ⟨F64.ofInt 25, F64.ofInt 77, F64.ofInt 298⟩⟩ := by
  decide

/-! ## Unit conversion -/

/-- C7: `celsiusToFahrenheit c` is `c * 1.8 + 32` in `float64` arithmetic for
every `c`, the constant being the `float64` nearest to 1.8 and nothing else
applied to the result (36.6 gives 97.88000000000001, not 97.88); it maps 0 to
32, 100 to 212, 25 to 77 and -40 to -40 exactly, whether the product and the
sum are rounded separately or fused. -/
theorem celsiusToFahrenheit_eq :
    (∀ c, celsiusToFahrenheit c = F64.add (F64.mul c (F64.ofRatio 18 10)) (F64.ofInt 32))
      ∧ |(F64.ofRatio 18 10).toRat - 18 / 10| ≤ 2 ^ (-52 : Int) / 2
      ∧ (celsiusToFahrenheit (F64.ofInt 0) = F64.ofInt 32
        ∧ celsiusToFahrenheit (F64.ofInt 100) = F64.ofInt 212
        ∧ celsiusToFahrenheit (F64.ofInt 25) = F64.ofInt 77
        ∧ celsiusToFahrenheit (F64.ofInt (-40)) = F64.ofInt (-40))
      ∧ ((celsiusToFahrenheit (F64.ofInt 0)).toRat = 32
        ∧ (celsiusToFahrenheit (F64.ofInt 100)).toRat = 212
        ∧ (celsiusToFahrenheit (F64.ofInt 25)).toRat = 77
        ∧ (celsiusToFahrenheit (F64.ofInt (-40))).toRat = -40)
      ∧ (celsiusToFahrenheitFused (F64.ofInt 0) = F64.ofInt 32
        ∧ celsiusToFahrenheitFused (F64.ofInt 100) = F64.ofInt 212
        ∧ celsiusToFahrenheitFused (F64.ofInt 25) = F64.ofInt 77
        ∧ celsiusToFahrenheitFused (F64.ofInt (-40)) = F64.ofInt (-40))
      ∧ celsiusToFahrenheit (F64.ofRatio 366 10) = .fin false 0x187851EB851EB9 (-46)
      ∧ F64.ofRatio 9788 100 = .fin false 0x187851EB851EB8 (-46) := by
  have h0 : celsiusToFahrenheit (F64.ofInt 0) = F64.ofInt 32 := by decide
  have h100 : celsiusToFahrenheit (F64.ofInt 100) = F64.ofInt 212 := by decide
  have h25 : celsiusToFahrenheit (F64.ofInt 25) = F64.ofInt 77 := by decide
  have h40 : celsiusToFahrenheit (F64.ofInt (-40)) = F64.ofInt (-40) := by decide
  have hk : F64.ofRatio 18 10 = .fin false 0x1CCCCCCCCCCCCD (-52) := by decide
  refine ⟨fun _ => rfl, ?_, ⟨h0, h100, h25, h40⟩, ⟨?_, ?_, ?_, ?_⟩,
    ⟨by decide, by decide, by decide, by decide⟩, by decide, by decide⟩
  · rw [hk]
    simp only [F64.toRat, F64.signed]
    rw [abs_le]
    norm_num
  · rw [h0]
    exact_mod_cast ofInt_toRat 32 (by decide)
  · rw [h100]
    exact_mod_cast ofInt_toRat 212 (by decide)
  · rw [h25]
    exact_mod_cast ofInt_toRat 77 (by decide)
  · rw [h40]
    exact_mod_cast ofInt_toRat (-40) (by decide)

/-- C8: `celsiusToKelvin c` is `c + 273` in `float64` arithmetic for every `c`,
the offset being the integer 273 and not 273.15, and nothing else applied to
the result (25.55 gives 298.55); it maps 0 to 273, 100 to 373, 25 to 298 and
-273 to 0 exactly. -/
theorem celsiusToKelvin_eq :
    (∀ c, celsiusToKelvin c = F64.add c (F64.ofInt 273))
      ∧ (F64.ofInt 273).toRat = 273
      ∧ F64.ofInt 273 ≠ F64.ofRatio 27315 100
      ∧ (celsiusToKelvin (F64.ofInt 0) = F64.ofInt 273
        ∧ celsiusToKelvin (F64.ofInt 100) = F64.ofInt 373
        ∧ celsiusToKelvin (F64.ofInt 25) = F64.ofInt 298
        ∧ celsiusToKelvin (F64.ofInt (-273)) = F64.ofInt 0)
      ∧ ((celsiusToKelvin (F64.ofInt 0)).toRat = 273
        ∧ (celsiusToKelvin (F64.ofInt 100)).toRat = 373
        ∧ (celsiusToKelvin (F64.ofInt 25)).toRat = 298
        ∧ (celsiusToKelvin (F64.ofInt (-273))).toRat = 0)
      ∧ celsiusToKelvin (F64.ofRatio 2555 100) = F64.ofRatio 29855 100 := by
  have h0 : celsiusToKelvin (F64.ofInt 0) = F64.ofInt 273 := by decide
  have h100 : celsiusToKelvin (F64.ofInt 100) = F64.ofInt 373 := by decide
  have h25 : celsiusToKelvin (F64.ofInt 25) = F64.ofInt 298 := by decide
  have h273 : celsiusToKelvin (F64.ofInt (-273)) = F64.ofInt 0 := by decide
  refine ⟨fun _ => rfl, ?_, by decide, ⟨h0, h100, h25, h273⟩, ⟨?_, ?_, ?_, ?_⟩, by decide⟩
  · exact_mod_cast ofInt_toRat 273 (by decide)
  · rw [h0]
    exact_mod_cast ofInt_toRat 273 (by decide)
  · rw [h100]
    exact_mod_cast ofInt_toRat 373 (by decide)
  · rw [h25]
    exact_mod_cast ofInt_toRat 298 (by decide)
  · rw [h273]
    exact_mod_cast ofInt_toRat 0 (by decide)

end CepWeather
